import Mathlib

/-!
Verification of the voice-channel (VC) lifecycle subsystem of the discord_bot
repository (`src/cogs/vcmanager.py`, `src/database.py`) against its
natural-language specification.

The Python code is shallowly embedded: dictionaries become association lists
or functions into `Option`, platform snowflake ids become `Nat`, ISO-8601
timestamps become `Nat` instants (only their ordering is ever used by the
code), and Python `None` becomes `Option.none`.  Side effects (platform API
calls) are reified as explicit effect lists where a claim is about them.
-/

/-- A guild member as seen by the voice-state handlers: an id and a bot flag
(`member.bot` in the source). -/
structure Member where
  id : Nat
  isBot : Bool
deriving DecidableEq, Repr

/-- `discord.PermissionOverwrite`: every permission flag is tri-state
(`None` = inherit, `True` = allow, `False` = deny).  Only the flags the
vcmanager code ever sets are modelled. -/
structure PermissionOverwrite where
  view_channel : Option Bool := none
  connect : Option Bool := none
  manage_channels : Option Bool := none
  read_messages : Option Bool := none
  send_messages : Option Bool := none
deriving DecidableEq, Repr

/-- A key of the `overwrites` dictionary: the `@everyone` role
(`guild.default_role`), the bot itself (`guild.me`), a role, or a member. -/
inductive OverwriteTarget where
  | defaultRole : OverwriteTarget
  | botMe : OverwriteTarget
  | role (id : Nat) : OverwriteTarget
  | member (id : Nat) : OverwriteTarget
deriving DecidableEq, Repr

/-- The `overwrites` dict, modelled as a function from keys to optional
values (the code only ever reads it back by key, never iterates it). -/
def OwMap : Type := OverwriteTarget → Option PermissionOverwrite

/-- Python dict assignment `overwrites[t] = po`. -/
def owSet (m : OwMap) (t : OverwriteTarget) (po : PermissionOverwrite) : OwMap :=
  fun u => if u = t then some po else m u

/-- String constants of the Python class `VCOption` (option flags stored in
the `options` list of a config / active-VC record). -/
def VCOption.TEXT_CHANNEL : String := "参加者専用チャット"
def VCOption.NO_CONTROL : String := "操作パネルなし"
def VCOption.HIDE_FULL : String := "満員時に非表示"
def VCOption.LOCK_NAME : String := "名前変更制限"
def VCOption.NO_STATE_CONTROL : String := "状態操作なし"
def VCOption.NO_JOIN_LEAVE_LOG : String := "入退室ログなし"
def VCOption.NO_OWNERSHIP_TRANSFER : String := "管理者譲渡なし"
def VCOption.DELAY_DELETE : String := "時間指定で削除"

/-- The attribute table of the Python class `VCType`.  The class body defines
exactly two attributes, `NO_LIMIT` and `WITH_LIMIT`; looking up any other
attribute name raises `AttributeError`, which this embedding represents by
returning `none`. -/
def VCType.attrs (a : String) : Option String :=
  if a = "NO_LIMIT" then some "人数指定なし"
  else if a = "WITH_LIMIT" then some "人数指定"
  else none

/-- One record of the in-memory `active_vcs` dict (and of the `active_vcs`
database table).  Fields unused by the verified claims keep their source
names but are given defaults so that records can be written concisely. -/
structure VCData where
  original_limit : Nat := 0
  bot_count : Int := 0
  vc_type : String := "人数指定なし"
  owner_id : Nat := 0
  banned_users : List Nat := []
  options : List String := []
  base_name : Option String := none
  name_number : Option Nat := none
  category_id : Option Nat := none
  text_channel_id : Option Nat := none
  control_channel_id : Option Nat := none
  delete_delay_minutes : Option Nat := none
  delete_ready_at : Option Nat := none
deriving DecidableEq, Repr

/-- Association-list lookup standing for `dict.get(key)` on an id-keyed
dict. -/
def vcLookup (l : List (Nat × VCData)) (k : Nat) : Option VCData :=
  (l.find? (fun p => p.1 = k)).map (fun p => p.2)

/-- Python exceptions that can escape the embedded fragments. -/
inductive PyErr where
  | attributeError (msg : String) : PyErr
deriving DecidableEq, Repr

/-! ### C1 — `handle_bot_join` / `handle_bot_leave`

Faithful embedding of `VCManager.handle_bot_join` (vcmanager.py 985-999) and
`VCManager.handle_bot_leave` (1001-1014).  Both guard on
`vc_data.get('vc_type') == VCType.LIMIT`; evaluating the attribute access
`VCType.LIMIT` raises `AttributeError` because the class defines no such
attribute, so the body can never be reached for an active channel.  The
result is the updated `active_vcs` record together with the user-limit edit
the handler would issue, or the escaping exception. -/

/-- `handle_bot_join`: returns the updated record for the channel and the
`channel.edit(user_limit=·)` call it performs, if any. -/
def handle_bot_join (active_vcs : List (Nat × VCData)) (chId : Nat) :
    Except PyErr (List (Nat × VCData) × Option Int) :=
  match vcLookup active_vcs chId with
  | none => .ok (active_vcs, none)
  | some vc_data =>
    match VCType.attrs "LIMIT" with
    | none => .error (.attributeError "type object VCType has no attribute LIMIT")
    | some lim =>
      if vc_data.vc_type = lim then
        let vc_data' := { vc_data with bot_count := vc_data.bot_count + 1 }
        let new_limit : Int := (vc_data'.original_limit : Int) + vc_data'.bot_count
        (.ok (active_vcs.map (fun p => if p.1 = chId then (chId, vc_data') else p),
          if new_limit ≤ 99 then some new_limit else none))
      else .ok (active_vcs, none)

/-- `handle_bot_leave`: mirror of `handle_bot_join` with the decrement
guarded by `vc_data['bot_count'] > 0` and an unconditional edit. -/
def handle_bot_leave (active_vcs : List (Nat × VCData)) (chId : Nat) :
    Except PyErr (List (Nat × VCData) × Option Int) :=
  match vcLookup active_vcs chId with
  | none => .ok (active_vcs, none)
  | some vc_data =>
    match VCType.attrs "LIMIT" with
    | none => .error (.attributeError "type object VCType has no attribute LIMIT")
    | some lim =>
      if vc_data.vc_type = lim ∧ vc_data.bot_count > 0 then
        let vc_data' := { vc_data with bot_count := vc_data.bot_count - 1 }
        let new_limit : Int := (vc_data'.original_limit : Int) + vc_data'.bot_count
        (.ok (active_vcs.map (fun p => if p.1 = chId then (chId, vc_data') else p),
          some new_limit))
      else .ok (active_vcs, none)

/-- Claim C1: for every fixed-capacity active voice channel and every bot
join/leave event, the live user-limit equals `original_user_limit +
bot_occupant_count` clamped to `[0,99]` and the bot count never goes
negative.  What the code actually does: for every channel present in
`active_vcs` — in particular every fixed-capacity one — both handlers
evaluate the nonexistent attribute `VCType.LIMIT` and raise
`AttributeError`, so neither `bot_count` nor the user limit is ever
adjusted and the claimed invariant cannot be established. -/
theorem C1_bot_handlers_raise_attribute_error
    (active_vcs : List (Nat × VCData)) (chId : Nat)
    (h : (vcLookup active_vcs chId).isSome) :
    handle_bot_join active_vcs chId =
        .error (.attributeError "type object VCType has no attribute LIMIT") ∧
    handle_bot_leave active_vcs chId =
        .error (.attributeError "type object VCType has no attribute LIMIT") := by
  obtain ⟨vc, hvc⟩ := Option.isSome_iff_exists.mp h
  constructor <;> simp [handle_bot_join, handle_bot_leave, hvc, VCType.attrs]

/-- Witness for C1 at a concrete fixed-capacity channel: channel 100,
vc_type `人数指定` (WITH_LIMIT), original limit 5. -/
theorem C1_bot_handlers_raise_attribute_error_witness :
    ((vcLookup [(100, { vc_type := "人数指定", original_limit := 5 : VCData })] 100).isSome) ∧
    handle_bot_join [(100, { vc_type := "人数指定", original_limit := 5 : VCData })] 100 =
        .error (.attributeError "type object VCType has no attribute LIMIT") :=
  ⟨by decide,
   (C1_bot_handlers_raise_attribute_error
      [(100, { vc_type := "人数指定", original_limit := 5 : VCData })] 100 (by decide)).1⟩

/-! ### C2 — emptiness guard (`_can_delete_channel_now`, `_delayed_delete_worker`)

Embedding of `VCManager._can_delete_channel_now` (vcmanager.py 310-320), the
emptiness check at the tail of `handle_vc_leave` (267-272) and the body of
`VCManager._delayed_delete_worker` (346-371).  `datetime` instants are
modelled as `Nat`; `_parse_delete_ready_at` succeeds exactly when the stored
value is set, which the identity on `Option Nat` captures. -/

/-- The per-channel view the deletion checks consult: the `active_vcs` entry
(if any) and whether the platform channel has already been deleted. -/
structure ChanState where
  data : Option VCData
  deleted : Bool := false
deriving DecidableEq, Repr

/-- `_parse_delete_ready_at`: `None`/empty parses to `None`, an ISO string
parses to its instant (modelled directly as the instant). -/
def parse_delete_ready_at (value : Option Nat) : Option Nat := value

/-- `_can_delete_channel_now` at instant `now` (`datetime.utcnow()`).
Python truthiness of `delay_minutes` makes both `None` and `0` fall through
to `True`. -/
def can_delete_channel_now (st : ChanState) (now : Nat) : Bool :=
  match st.data with
  | none => true
  | some vc_data =>
    match vc_data.delete_delay_minutes with
    | none => true
    | some delay_minutes =>
      if delay_minutes = 0 then true
      else
        match parse_delete_ready_at vc_data.delete_ready_at with
        | none => true
        | some ready_at => decide (ready_at ≤ now)

/-- The emptiness check run after every leave event (`handle_vc_leave`
lines 267-272): if the record exists, zero non-bot members remain and
`_can_delete_channel_now` holds, the channel is deleted. -/
def handle_leave_empty_check (st : ChanState) (now : Nat) (nonBotCount : Nat) : ChanState :=
  if st.data.isSome then
    if nonBotCount = 0 then
      if can_delete_channel_now st now then { data := none, deleted := true }
      else st
    else st
  else st

/-- A leave event: the instant it is handled and the number of non-bot
members remaining in the channel afterwards. -/
structure LeaveEvent where
  time : Nat
  nonBotCount : Nat
deriving DecidableEq, Repr

/-- Folding the leave-triggered emptiness check over a sequence of leave
events. -/
def processLeaves (st : ChanState) (evs : List LeaveEvent) : ChanState :=
  evs.foldl (fun s e => handle_leave_empty_check s e.time e.nonBotCount) st

/-- `_delayed_delete_worker` sleeps until `delete_ready_at` when scheduled
earlier, so its check runs at `max scheduledAt ready_at`. -/
def delayed_delete_worker_fire_time (scheduledAt ready_at : Nat) : Nat :=
  max scheduledAt ready_at

/-- The check the delayed-delete worker performs when it fires (for a
channel that still resolves): with non-bot members present it does nothing,
otherwise it deletes the channel. -/
def delayed_delete_worker_fire (st : ChanState) (nonBotCount : Nat) : ChanState :=
  match st.data with
  | none => st
  | some vc_data =>
    match parse_delete_ready_at vc_data.delete_ready_at with
    | none => st
    | some _ => if nonBotCount > 0 then st else { data := none, deleted := true }

/-- Before `delete_ready_at`, every leave event — whatever occupancy it
leaves behind — keeps the state unchanged. -/
theorem processLeaves_before_ready (vc : VCData) (T delay : Nat)
    (hdm : vc.delete_delay_minutes = some delay) (hdm0 : delay ≠ 0)
    (hT : vc.delete_ready_at = some T) (evs : List LeaveEvent)
    (hevs : ∀ e ∈ evs, e.time < T) :
    processLeaves ⟨some vc, false⟩ evs = ⟨some vc, false⟩ := by
  induction evs with
  | nil => rfl
  | cons e rest ih =>
    have he : e.time < T := hevs e (List.mem_cons_self e rest)
    have hstep : handle_leave_empty_check ⟨some vc, false⟩ e.time e.nonBotCount
        = ⟨some vc, false⟩ := by
      simp only [handle_leave_empty_check, can_delete_channel_now, parse_delete_ready_at,
        hdm, hdm0, hT]
      simp [Nat.not_le.mpr he, hdm0]
    simpa [processLeaves, hstep] using ih (fun e' he' => hevs e' (List.mem_cons_of_mem e he'))

/-- Claim C2: with `delete_not_before = T` set, no leave event before `T`
that brings human occupancy to zero deletes the channel, and the first leave
event — or delayed-delete timer fire, which by construction happens no
earlier than `T` — at or after `T` that finds zero humans does delete it. -/
theorem C2_emptiness_guard (vc : VCData) (T delay : Nat)
    (hdm : vc.delete_delay_minutes = some delay) (hdm0 : delay ≠ 0)
    (hT : vc.delete_ready_at = some T) :
    (∀ evs : List LeaveEvent, (∀ e ∈ evs, e.time < T) →
      (processLeaves ⟨some vc, false⟩ evs).deleted = false ∧
      (∀ t, T ≤ t →
        (handle_leave_empty_check (processLeaves ⟨some vc, false⟩ evs) t 0).deleted = true)) ∧
    (∀ scheduledAt : Nat, T ≤ delayed_delete_worker_fire_time scheduledAt T) ∧
    (delayed_delete_worker_fire ⟨some vc, false⟩ 0).deleted = true ∧
    (∀ h : Nat, 0 < h → delayed_delete_worker_fire ⟨some vc, false⟩ h = ⟨some vc, false⟩) := by
  refine ⟨fun evs hevs => ?_, fun scheduledAt => Nat.le_max_right _ _, ?_, fun h hh => ?_⟩
  · have hfold := processLeaves_before_ready vc T delay hdm hdm0 hT evs hevs
    refine ⟨by rw [hfold], fun t ht => ?_⟩
    rw [hfold]
    simp only [handle_leave_empty_check, can_delete_channel_now, parse_delete_ready_at,
      hdm, hdm0, hT]
    simp [ht, hdm0]
  · simp [delayed_delete_worker_fire, parse_delete_ready_at, hT]
  · simp [delayed_delete_worker_fire, parse_delete_ready_at, hT, Nat.pos_iff_ne_zero.mp hh,
      hh.ne.symm]

/-- Witness for C2: a channel with a 15-minute delay, `delete_ready_at = 10`,
and a leave sequence entirely before instant 10. -/
theorem C2_emptiness_guard_witness :
    ((processLeaves ⟨some { delete_delay_minutes := some 15, delete_ready_at := some 10 },
        false⟩ [⟨3, 0⟩, ⟨7, 0⟩]).deleted = false ∧
     (∀ t, 10 ≤ t →
       (handle_leave_empty_check
         (processLeaves ⟨some { delete_delay_minutes := some 15, delete_ready_at := some 10 },
           false⟩ [⟨3, 0⟩, ⟨7, 0⟩]) t 0).deleted = true)) :=
  (C2_emptiness_guard { delete_delay_minutes := some 15, delete_ready_at := some 10 } 10 15
      rfl (by decide) rfl).1 [⟨3, 0⟩, ⟨7, 0⟩] (by decide)

/-! ### C3 — idempotent deletion (`delete_user_vc`)

Embedding of `VCManager.delete_user_vc` (vcmanager.py 1052-1099).  The whole
body runs inside a `try/except Exception` that logs and swallows, so the
routine never raises; the embedding is therefore a total function returning
the updated `active_vcs` dict together with the list of platform/store side
effects it performs.  Companion channels are only deleted when they still
resolve via `guild.get_channel`; the voice channel itself is always
attempted (its `HTTPException` is caught). -/

/-- The observable side effects of one `delete_user_vc` run. -/
inductive DeleteEffect where
  | textDeleteAttempt (id : Nat) : DeleteEffect
  | controlDeleteAttempt (id : Nat) : DeleteEffect
  | vcDeleteAttempt (id : Nat) : DeleteEffect
  | dbDelete (id : Nat) : DeleteEffect
  | cancelTimer (id : Nat) : DeleteEffect
deriving DecidableEq, Repr

/-- Whether an effect is a platform deletion attempt of the voice channel
itself. -/
def DeleteEffect.isVcDelete : DeleteEffect → Bool
  | .vcDeleteAttempt _ => true
  | _ => false

/-- `delete_user_vc`: the channels currently resolvable in the guild stand
for `guild.get_channel`. -/
def delete_user_vc (guildChannels : List Nat) (active_vcs : List (Nat × VCData))
    (chId : Nat) : List (Nat × VCData) × List DeleteEffect :=
  match vcLookup active_vcs chId with
  | none => (active_vcs, [])
  | some vc_data =>
    let textEff := match vc_data.text_channel_id with
      | some t => if t ∈ guildChannels then [DeleteEffect.textDeleteAttempt t] else []
      | none => []
    let controlEff := match vc_data.control_channel_id with
      | some c => if c ∈ guildChannels then [DeleteEffect.controlDeleteAttempt c] else []
      | none => []
    (active_vcs.filter (fun p => p.1 ≠ chId),
     textEff ++ controlEff ++
       [DeleteEffect.vcDeleteAttempt chId, DeleteEffect.dbDelete chId,
        DeleteEffect.cancelTimer chId])

/-- After removing every entry keyed `k`, the lookup for `k` fails. -/
theorem vcLookup_filter_ne (l : List (Nat × VCData)) (k : Nat) :
    vcLookup (l.filter (fun p => p.1 ≠ k)) k = none := by
  induction l with
  | nil => rfl
  | cons x xs ih =>
    by_cases hx : x.1 = k
    · rw [List.filter_cons, if_neg (by simp [hx])]
      exact ih
    · simp [vcLookup, List.filter_cons, List.find?_cons, hx, ih]

/-- Claim C3: once a first `delete_user_vc` invocation for a channel id has
completed, the pair of calls has produced exactly one platform
voice-channel deletion attempt, the second call raises no exception (the
embedding is total — the source wraps its body in a catch-all handler), is
a no-op on the state, and performs no side effects at all. -/
theorem C3_delete_idempotent (guildChannels : List Nat)
    (active_vcs : List (Nat × VCData)) (chId : Nat)
    (h : (vcLookup active_vcs chId).isSome) :
    ((delete_user_vc guildChannels active_vcs chId).2.countP DeleteEffect.isVcDelete = 1) ∧
    (delete_user_vc guildChannels
        (delete_user_vc guildChannels active_vcs chId).1 chId =
      ((delete_user_vc guildChannels active_vcs chId).1, [])) := by
  obtain ⟨vc, hvc⟩ := Option.isSome_iff_exists.mp h
  constructor
  · rcases htx : vc.text_channel_id with _ | t <;> rcases hct : vc.control_channel_id with _ | c <;>
      simp only [delete_user_vc, hvc, htx, hct]
    · simp [List.countP_cons, List.countP_nil, DeleteEffect.isVcDelete]
    · split <;>
        simp [List.countP_append, List.countP_cons, List.countP_nil, DeleteEffect.isVcDelete]
    · split <;>
        simp [List.countP_append, List.countP_cons, List.countP_nil, DeleteEffect.isVcDelete]
    · split <;> split <;>
        simp [List.countP_append, List.countP_cons, List.countP_nil, DeleteEffect.isVcDelete]
  · have hgone : vcLookup (delete_user_vc guildChannels active_vcs chId).1 chId = none := by
      simp only [delete_user_vc, hvc]
      exact vcLookup_filter_ne active_vcs chId
    generalize hr : (delete_user_vc guildChannels active_vcs chId).1 = rest at hgone ⊢
    simp [delete_user_vc, hgone]

/-- Witness for C3: channel 100 with a companion text channel 200 that still
resolves. -/
theorem C3_delete_idempotent_witness :
    ((delete_user_vc [100, 200]
        [(100, { text_channel_id := some 200 : VCData })] 100).2.countP
        DeleteEffect.isVcDelete = 1) ∧
    (delete_user_vc [100, 200]
        (delete_user_vc [100, 200]
          [(100, { text_channel_id := some 200 : VCData })] 100).1 100 =
      ((delete_user_vc [100, 200]
          [(100, { text_channel_id := some 200 : VCData })] 100).1, [])) :=
  C3_delete_idempotent [100, 200] [(100, { text_channel_id := some 200 : VCData })] 100
    (by decide)

/-! ### C4 — locked-name de-duplication

Embedding of the name-resolution block of
`VCManager._create_and_move_user_impl` (vcmanager.py 399-440).  The Python
`while number in existing_numbers: number += 1` loop is embedded with an
explicit fuel of `len(existing_numbers) + 1`, which is always enough for the
loop to exit.  `existing_numbers` collects `name_number` from the records
matching both the base name and the target category; the Python code adds
`None` for a hypothetical matching record without a number, but `None` never
equals the integer loop counter, so `filterMap` over the numbers is
equivalent. -/

/-- The `while number in existing_numbers: number += 1` loop, with fuel. -/
def chooseNumberAux : Nat → Nat → List Nat → Nat
  | 0, number, _ => number
  | fuel + 1, number, existing_numbers =>
    if number ∈ existing_numbers then chooseNumberAux fuel (number + 1) existing_numbers
    else number

/-- The smallest free suffix: the loop started at `1` with sufficient
fuel. -/
def chooseNumber (existing_numbers : List Nat) : Nat :=
  chooseNumberAux (existing_numbers.length + 1) 1 existing_numbers

/-- Numbers already in use among active channels sharing the base name and
the target category (vcmanager.py 419-423). -/
def used_numbers (active_vcs : List (Nat × VCData)) (base_name : String)
    (target_category_id : Option Nat) : List Nat :=
  active_vcs.filterMap (fun p =>
    if p.2.base_name = some base_name ∧ p.2.category_id = target_category_id then
      p.2.name_number
    else none)

/-- Base-name choice under the locked-name option (vcmanager.py 400-407):
the configured template, or `{member-name}・VC` when the template is the
empty string. -/
def lock_base_name (member_name : String) (locked_name : String) : String :=
  if locked_name = "" then member_name ++ "・VC" else locked_name

/-- The locked-name channel name and its numeric suffix (vcmanager.py
417-435). -/
def compute_locked_channel_name (active_vcs : List (Nat × VCData))
    (member_name locked_name : String) (target_category_id : Option Nat) : String × Nat :=
  let base_name := lock_base_name member_name locked_name
  let number := chooseNumber (used_numbers active_vcs base_name target_category_id)
  (base_name ++ "-" ++ toString number, number)

/-- Creating a locked-name channel: compute the suffix and append the new
record with `base_name`/`name_number` recorded as the source does
(vcmanager.py 556-577). -/
def insert_locked_vc (active_vcs : List (Nat × VCData)) (newId : Nat)
    (member_name locked_name : String) (target_category_id : Option Nat) :
    List (Nat × VCData) :=
  let base_name := lock_base_name member_name locked_name
  let number := chooseNumber (used_numbers active_vcs base_name target_category_id)
  active_vcs ++ [(newId,
    { base_name := some base_name, name_number := some number,
      category_id := target_category_id, options := [VCOption.LOCK_NAME] })]

/-- Counting elements `≥ n + 1` and adding the occurrence of `n` stays below
the count of elements `≥ n`. -/
theorem countP_ge_shift (used : List Nat) (n : Nat) (hn : n ∈ used) :
    used.countP (fun m => decide (n + 1 ≤ m)) + 1 ≤
      used.countP (fun m => decide (n ≤ m)) := by
  induction used with
  | nil => cases hn
  | cons x xs ih =>
    rw [List.countP_cons, List.countP_cons]
    have hdec : (if decide (n + 1 ≤ x) = true then 1 else 0) ≤
        (if decide (n ≤ x) = true then 1 else 0) := by
      by_cases hx : n + 1 ≤ x
      · simp [hx, Nat.le_of_succ_le hx]
      · simp [hx]
    rcases List.mem_cons.mp hn with hx | hx
    · subst hx
      have hmono : xs.countP (fun m => decide (n + 1 ≤ m)) ≤
          xs.countP (fun m => decide (n ≤ m)) := by
        apply List.countP_mono_left
        intro a _ ha
        simp only [decide_eq_true_eq] at ha ⊢
        omega
      have e1 : decide (n + 1 ≤ n) = false := by simp
      have e2 : decide (n ≤ n) = true := by simp
      rw [e1, e2]
      simp only [Bool.false_eq_true, if_false, if_true]
      omega
    · have h := ih hx
      omega

/-- Correctness of the fuelled loop: with enough fuel the result is not in
`used`, is at least the start value, and everything between the start value
and the result is in `used`. -/
theorem chooseNumberAux_spec (used : List Nat) :
    ∀ fuel n, used.countP (fun m => decide (n ≤ m)) < fuel →
      (chooseNumberAux fuel n used ∉ used ∧ n ≤ chooseNumberAux fuel n used ∧
        ∀ m, n ≤ m → m < chooseNumberAux fuel n used → m ∈ used) := by
  intro fuel
  induction fuel with
  | zero => intro n h; omega
  | succ fuel ih =>
    intro n h
    by_cases hn : n ∈ used
    · have hcnt := countP_ge_shift used n hn
      have h2 : used.countP (fun m => decide (n + 1 ≤ m)) < fuel := by omega
      obtain ⟨ha, hb, hc⟩ := ih (n + 1) h2
      simp only [chooseNumberAux, if_pos hn]
      refine ⟨ha, by omega, fun m h1 h2 => ?_⟩
      rcases Nat.lt_or_ge m (n + 1) with hm | hm
      · have hmn : m = n := by omega
        exact hmn ▸ hn
      · exact hc m hm h2
    · simp only [chooseNumberAux, if_neg hn]
      exact ⟨hn, Nat.le_refl n, fun m h1 h2 => by omega⟩

/-- `chooseNumber` returns the smallest positive integer not in `used`. -/
theorem chooseNumber_spec (used : List Nat) :
    chooseNumber used ∉ used ∧ 1 ≤ chooseNumber used ∧
      ∀ m, 1 ≤ m → m < chooseNumber used → m ∈ used := by
  have h : used.countP (fun m => decide (1 ≤ m)) < used.length + 1 :=
    Nat.lt_succ_of_le (List.countP_le_length _)
  exact chooseNumberAux_spec used (used.length + 1) 1 h

/-- Claim C4: with the locked-name option set, the new channel's name is the
configured template (or `{member-name}・VC` when the template is blank)
suffixed with the smallest positive integer not already in use among active
channels sharing the base name and the target category; and in the concrete
scenario, three creations yield suffixes 1, 2, 3, and after deleting the one
numbered 2 the next creation yields 2 again. -/
theorem C4_locked_name_dedup :
    (∀ (active_vcs : List (Nat × VCData)) (member_name locked_name : String)
        (target_category_id : Option Nat),
      (compute_locked_channel_name active_vcs member_name locked_name target_category_id).1 =
        lock_base_name member_name locked_name ++ "-" ++
          toString (compute_locked_channel_name active_vcs member_name locked_name
            target_category_id).2 ∧
      (compute_locked_channel_name active_vcs member_name locked_name target_category_id).2 ∉
        used_numbers active_vcs (lock_base_name member_name locked_name) target_category_id ∧
      1 ≤ (compute_locked_channel_name active_vcs member_name locked_name
        target_category_id).2 ∧
      (∀ m, 1 ≤ m →
        m < (compute_locked_channel_name active_vcs member_name locked_name
          target_category_id).2 →
        m ∈ used_numbers active_vcs (lock_base_name member_name locked_name)
          target_category_id)) ∧
    ((compute_locked_channel_name [] "alice" "work" (some 5)).2 = 1 ∧
     (compute_locked_channel_name
        (insert_locked_vc [] 11 "alice" "work" (some 5)) "bob" "work" (some 5)).2 = 2 ∧
     (compute_locked_channel_name
        (insert_locked_vc (insert_locked_vc [] 11 "alice" "work" (some 5))
          12 "bob" "work" (some 5)) "carol" "work" (some 5)).2 = 3 ∧
     (compute_locked_channel_name
        ((insert_locked_vc
            (insert_locked_vc (insert_locked_vc [] 11 "alice" "work" (some 5))
              12 "bob" "work" (some 5))
            13 "carol" "work" (some 5)).filter (fun p => p.1 ≠ 12))
        "dave" "work" (some 5)).2 = 2) := by
  constructor
  · intro active_vcs member_name locked_name target_category_id
    obtain ⟨ha, hb, hc⟩ :=
      chooseNumber_spec (used_numbers active_vcs (lock_base_name member_name locked_name)
        target_category_id)
    exact ⟨rfl, ha, hb, hc⟩
  · refine ⟨by decide, by decide, by decide, by decide⟩

/-- Witness for C4: the general characterization applied to the concrete
one-channel state from the scenario. -/
theorem C4_locked_name_dedup_witness :
    (compute_locked_channel_name (insert_locked_vc [] 11 "alice" "work" (some 5))
        "bob" "work" (some 5)).2 ∉
      used_numbers (insert_locked_vc [] 11 "alice" "work" (some 5))
        (lock_base_name "bob" "work") (some 5) :=
  (C4_locked_name_dedup.1 (insert_locked_vc [] 11 "alice" "work" (some 5))
    "bob" "work" (some 5)).2.1

/-! ### C5 — no one-active-channel-per-user enforcement

`VCManager.handle_vc_join` (vcmanager.py 215-246) dispatches a hub join
straight to `create_and_move_user`, and
`VCManager._create_and_move_user_impl` (391-652) contains no scan of
`active_vcs` (or of the store) for an existing channel of the joining user:
it unconditionally creates the channel and appends the new record keyed by
the platform-assigned id.  The embedding below keeps exactly that decision
structure; `newId` is the id the platform assigns to the created channel
(fresh, since platform ids are unique). -/

/-- Hub dispatch of `handle_vc_join` composed with the record insertion of
`_create_and_move_user_impl`: when `channelId` is a registered hub, a new
record owned by the joining member is appended; no error path for a user
who already owns an active channel exists. -/
def handle_vc_join_hub (vc_systems_hubs : List Nat) (active_vcs : List (Nat × VCData))
    (member : Member) (channelId : Nat) (newId : Nat) : List (Nat × VCData) :=
  if channelId ∈ vc_systems_hubs then
    active_vcs ++ [(newId, { owner_id := member.id })]
  else active_vcs

/-- Number of active records owned by a user. -/
def owned_active_count (active_vcs : List (Nat × VCData)) (userId : Nat) : Nat :=
  (active_vcs.filter (fun p => p.2.owner_id = userId)).length

/-- Counterexample to claim C5: user 1 already owns active channel 100 and
joins hub 50; provisioning does not fail with any
`UserAlreadyHasActiveChannel` error — it creates channel 200, leaving the
user with two active records. -/
theorem C5_no_duplicate_check_counterexample :
    owned_active_count
      (handle_vc_join_hub [50] [(100, { owner_id := 1 })] ⟨1, false⟩ 50 200) 1 = 2 := by
  decide

/-- Claim C5 as amended: provisioning never scans for an existing active
channel of the joining user; a hub join by a user who already owns an
active record in the guild simply appends a second record owned by them
(there is no `UserAlreadyHasActiveChannel` error in the VC subsystem). -/
theorem C5_provision_ignores_existing_channels
    (vc_systems_hubs : List Nat) (active_vcs : List (Nat × VCData))
    (member : Member) (channelId newId : Nat)
    (hhub : channelId ∈ vc_systems_hubs) :
    handle_vc_join_hub vc_systems_hubs active_vcs member channelId newId =
        active_vcs ++ [(newId, { owner_id := member.id })] ∧
    owned_active_count
        (handle_vc_join_hub vc_systems_hubs active_vcs member channelId newId) member.id =
      owned_active_count active_vcs member.id + 1 := by
  constructor
  · simp [handle_vc_join_hub, hhub]
  · simp [handle_vc_join_hub, hhub, owned_active_count, List.filter_append]

/-- Witness for C5 (amended): the concrete duplicate-owner state. -/
theorem C5_provision_ignores_existing_channels_witness :
    owned_active_count
        (handle_vc_join_hub [50] [(100, { owner_id := 1 })] ⟨1, false⟩ 50 200) 1 =
      owned_active_count [((100 : Nat), { owner_id := 1 : VCData })] 1 + 1 :=
  (C5_provision_ignores_existing_channels [50] [(100, { owner_id := 1 })] ⟨1, false⟩ 50 200
    (by decide)).2

/-! ### C6 — permission computation for visibility and participant filters

Embedding of the overwrite computation of `_create_and_move_user_impl`
(vcmanager.py 442-482).  `hidden_roles` is the visibility-role filter,
`vc_roles` the participant-role filter; `guildRoles` are the role ids that
`guild.get_role` resolves. -/

/-- The starting overwrites (vcmanager.py 444-447). -/
def initial_overwrites : OwMap :=
  fun t =>
    if t = OverwriteTarget.defaultRole then
      some { view_channel := some true, connect := some true }
    else if t = OverwriteTarget.botMe then
      some { view_channel := some true, connect := some true, manage_channels := some true }
    else none

/-- One iteration of the visibility-role loop (vcmanager.py 457-460). -/
def hidden_role_step (guildRoles : List Nat) (m : OwMap) (role_id : Nat) : OwMap :=
  if role_id ∈ guildRoles then
    owSet m (OverwriteTarget.role role_id) { view_channel := some true, connect := some true }
  else m

/-- The visibility-role step (vcmanager.py 449-460): with a non-empty
filter, flip `@everyone` to deny, keep the bot visible, allow each
resolvable filter role. -/
def apply_hidden_roles (guildRoles hidden_roles : List Nat) (ow : OwMap) : OwMap :=
  if hidden_roles = [] then ow
  else
    let ow1 := owSet ow OverwriteTarget.defaultRole
      { view_channel := some false, connect := some false }
    let ow2 := owSet ow1 OverwriteTarget.botMe
      { view_channel := some true, connect := some true, manage_channels := some true }
    hidden_roles.foldl (hidden_role_step guildRoles) ow2

/-- One iteration of the participant-role loop in the branch where a
visibility filter is also configured (vcmanager.py 467-475): read the
existing overwrite and write `view_channel = existing.view_channel if it is
not None else True`, `connect = True`. -/
def vc_role_step (guildRoles : List Nat) (m : OwMap) (role_id : Nat) : OwMap :=
  if role_id ∈ guildRoles then
    let existing := (m (OverwriteTarget.role role_id)).getD {}
    owSet m (OverwriteTarget.role role_id)
      { view_channel := some (existing.view_channel.getD true), connect := some true }
  else m

/-- The participant-role step (vcmanager.py 462-482). -/
def apply_vc_roles (guildRoles hidden_roles vc_roles : List Nat) (ow : OwMap) : OwMap :=
  if vc_roles = [] then ow
  else if hidden_roles ≠ [] then
    vc_roles.foldl (vc_role_step guildRoles) ow
  else
    let ow1 := owSet ow OverwriteTarget.defaultRole
      { view_channel := some true, connect := some false }
    vc_roles.foldl (hidden_role_step guildRoles) ow1

/-- The full overwrite computation for a new channel. -/
def compute_overwrites (guildRoles hidden_roles vc_roles : List Nat) : OwMap :=
  apply_vc_roles guildRoles hidden_roles vc_roles
    (apply_hidden_roles guildRoles hidden_roles initial_overwrites)

/-- Invariant: every role-target entry is either absent or allows viewing. -/
def RoleViewOk (m : OwMap) : Prop :=
  ∀ s : Nat, m (OverwriteTarget.role s) = none ∨
    ∃ po : PermissionOverwrite,
      m (OverwriteTarget.role s) = some po ∧ po.view_channel = some true

theorem owSet_same (m : OwMap) (t : OverwriteTarget) (po : PermissionOverwrite) :
    owSet m t po t = some po := by
  simp [owSet]

theorem owSet_other (m : OwMap) (t t' : OverwriteTarget) (po : PermissionOverwrite)
    (h : t' ≠ t) : owSet m t po t' = m t' := by
  simp [owSet, h]

theorem roleViewOk_hidden_step (guildRoles : List Nat) (m : OwMap) (r : Nat)
    (h : RoleViewOk m) : RoleViewOk (hidden_role_step guildRoles m r) := by
  intro s
  unfold hidden_role_step
  split
  · by_cases hs : s = r
    · subst hs
      exact Or.inr ⟨_, owSet_same _ _ _, rfl⟩
    · rw [owSet_other _ _ _ _ (by simp [hs])]
      exact h s
  · exact h s

theorem roleViewOk_vc_step (guildRoles : List Nat) (m : OwMap) (r : Nat)
    (h : RoleViewOk m) : RoleViewOk (vc_role_step guildRoles m r) := by
  intro s
  unfold vc_role_step
  split
  · by_cases hs : s = r
    · subst hs
      refine Or.inr ⟨_, owSet_same _ _ _, ?_⟩
      rcases h s with hnone | ⟨po, hpo, hview⟩
      · simp [hnone]
      · simp [hpo, hview]
    · rw [owSet_other _ _ _ _ (by simp [hs])]
      exact h s
  · exact h s

theorem roleViewOk_foldl_hidden (guildRoles : List Nat) (l : List Nat) (m : OwMap)
    (h : RoleViewOk m) : RoleViewOk (l.foldl (hidden_role_step guildRoles) m) := by
  induction l generalizing m with
  | nil => exact h
  | cons a l ih => exact ih _ (roleViewOk_hidden_step guildRoles m a h)

theorem roleViewOk_foldl_vc (guildRoles : List Nat) (l : List Nat) (m : OwMap)
    (h : RoleViewOk m) : RoleViewOk (l.foldl (vc_role_step guildRoles) m) := by
  induction l generalizing m with
  | nil => exact h
  | cons a l ih => exact ih _ (roleViewOk_vc_step guildRoles m a h)

/-- After the visibility step, every role entry that exists allows
viewing. -/
theorem roleViewOk_after_hidden (guildRoles hidden_roles : List Nat) :
    RoleViewOk (apply_hidden_roles guildRoles hidden_roles initial_overwrites) := by
  have hinit : RoleViewOk initial_overwrites := by
    intro s; left; rfl
  unfold apply_hidden_roles
  split
  · exact hinit
  · apply roleViewOk_foldl_hidden
    intro s
    rw [owSet_other _ _ _ _ (by simp), owSet_other _ _ _ _ (by simp)]
    exact hinit s

/-- The value the participant loop writes for a resolvable role under the
invariant. -/
theorem vc_step_writes (guildRoles : List Nat) (m : OwMap) (r : Nat)
    (h : RoleViewOk m) (hr : r ∈ guildRoles) :
    vc_role_step guildRoles m r (OverwriteTarget.role r) =
      some { view_channel := some true, connect := some true } := by
  unfold vc_role_step
  rw [if_pos hr]
  rcases h r with hnone | ⟨po, hpo, hview⟩
  · simp [hnone, owSet_same]
  · simp [hpo, hview, owSet_same]

/-- Once a role entry holds the participant value, the rest of the loop
keeps it. -/
theorem vc_foldl_stable (guildRoles : List Nat) (l : List Nat) (m : OwMap) (r : Nat)
    (h : RoleViewOk m)
    (hval : m (OverwriteTarget.role r) =
      some { view_channel := some true, connect := some true }) :
    l.foldl (vc_role_step guildRoles) m (OverwriteTarget.role r) =
      some { view_channel := some true, connect := some true } := by
  induction l generalizing m with
  | nil => exact hval
  | cons a l ih =>
    refine ih _ (roleViewOk_vc_step guildRoles m a h) ?_
    by_cases ha : a = r
    · subst ha
      unfold vc_role_step
      split
      · simp [hval, owSet_same]
      · exact hval
    · unfold vc_role_step
      split
      · rw [owSet_other _ _ _ _ (by simp [Ne.symm ha])]
        exact hval
      · exact hval

/-- Every resolvable participant role ends the loop with view and connect
allowed. -/
theorem vc_foldl_result (guildRoles : List Nat) (l : List Nat) (m : OwMap)
    (h : RoleViewOk m) (r : Nat) (hrl : r ∈ l) (hr : r ∈ guildRoles) :
    l.foldl (vc_role_step guildRoles) m (OverwriteTarget.role r) =
      some { view_channel := some true, connect := some true } := by
  induction l generalizing m with
  | nil => cases hrl
  | cons a l ih =>
    rcases List.mem_cons.mp hrl with hra | hrl2
    · subst hra
      exact vc_foldl_stable guildRoles l _ r
        (roleViewOk_vc_step guildRoles m r h)
        (vc_step_writes guildRoles m r h hr)
    · exact ih _ (roleViewOk_vc_step guildRoles m a h) hrl2

/-- Counterexample to claim C6: visibility filter `[1]`, participant filter
`[2]`, both roles resolvable.  Role 2 is not in the visibility filter, yet
the computed overwrite grants it `view_channel = True` (the `else True`
default of vcmanager.py line 473), so the participant filter does imply
visibility for its roles — the claim is false at this input. -/
theorem C6_participant_gains_view_counterexample :
    compute_overwrites [1, 2] [1] [2] (OverwriteTarget.role 2) =
      some { view_channel := some true, connect := some true } := by
  decide

/-- Claim C6 as amended: with both filters configured, every resolvable
participant role is granted connect, and ends with `view_channel = True` —
a role also in the visibility filter keeps the `True` that step gave it,
while a role not in the visibility filter is granted `view_channel = True`
by the participant step itself (it does gain view permission). -/
theorem C6_participant_roles_end_visible
    (guildRoles hidden_roles vc_roles : List Nat) (r : Nat)
    (hhid : hidden_roles ≠ []) (hvc : vc_roles ≠ [])
    (hr : r ∈ vc_roles) (hg : r ∈ guildRoles) :
    compute_overwrites guildRoles hidden_roles vc_roles (OverwriteTarget.role r) =
      some { view_channel := some true, connect := some true } := by
  unfold compute_overwrites apply_vc_roles
  rw [if_neg hvc, if_pos hhid]
  exact vc_foldl_result guildRoles vc_roles _
    (roleViewOk_after_hidden guildRoles hidden_roles) r hr hg

/-- Witness for C6 (amended) at the counterexample input. -/
theorem C6_participant_roles_end_visible_witness :
    compute_overwrites [1, 2] [1] [2] (OverwriteTarget.role 2) =
      some { view_channel := some true, connect := some true } :=
  C6_participant_roles_end_visible [1, 2] [1] [2] 2 (by decide) (by decide)
    (by decide) (by decide)

/-! ### C7 — ownership transfer on owner departure

Embedding of `VCManager.transfer_ownership_on_leave` (vcmanager.py
842-920).  `members` is `vc.members` in the platform's enumeration order at
the time the handler runs (the departed owner is no longer in it);
`db_bans` is `Database.get_banned_users`; `guildMembers` are the ids
`guild.get_member` resolves; `newControlId` is the id the platform assigns
to the recreated control channel. -/

/-- One iteration of the ban-overwrite loop (used both at ownership
transfer, vcmanager.py 881-884, and at provisioning, 548-551): deny connect
for each banned user who resolves in the guild. -/
def ban_overwrite_step (guildMembers : List Nat) (m : OwMap) (u : Nat) : OwMap :=
  if u ∈ guildMembers then
    owSet m (OverwriteTarget.member u) { connect := some false }
  else m

/-- Once a member target holds the deny-connect value, the rest of the ban
loop keeps it. -/
theorem ban_foldl_stable (guildMembers : List Nat) (l : List Nat) (m : OwMap) (u : Nat)
    (hval : m (OverwriteTarget.member u) = some { connect := some false }) :
    l.foldl (ban_overwrite_step guildMembers) m (OverwriteTarget.member u) =
      some { connect := some false } := by
  induction l generalizing m with
  | nil => exact hval
  | cons a l ih =>
    rw [List.foldl_cons]
    apply ih
    by_cases hga : a ∈ guildMembers
    · by_cases ha : a = u
      · subst ha
        simp only [ban_overwrite_step, if_pos hga]
        exact owSet_same _ _ _
      · simp only [ban_overwrite_step, if_pos hga]
        rw [owSet_other _ _ _ _ (by simp [Ne.symm ha])]
        exact hval
    · simp only [ban_overwrite_step, if_neg hga]
      exact hval

/-- Every banned user who resolves in the guild ends the ban loop with
connect denied. -/
theorem ban_foldl_result (guildMembers : List Nat) (l : List Nat) (m : OwMap) (u : Nat)
    (hu : u ∈ l) (hg : u ∈ guildMembers) :
    l.foldl (ban_overwrite_step guildMembers) m (OverwriteTarget.member u) =
      some { connect := some false } := by
  induction l generalizing m with
  | nil => cases hu
  | cons a l ih =>
    rw [List.foldl_cons]
    rcases List.mem_cons.mp hu with ha | hu2
    · subst ha
      apply ban_foldl_stable
      simp only [ban_overwrite_step, if_pos hg]
      exact owSet_same _ _ _
    · exact ih _ hu2

/-- What one `transfer_ownership_on_leave` run produces. -/
structure TransferResult where
  data : VCData
  disconnected : List Nat
  overwrites : OwMap
  control_delete_attempt : Option Nat
  new_control_channel : Option Nat
  new_control_owner : Option Nat

/-- `transfer_ownership_on_leave`: skip entirely under the
no-ownership-transfer option; do nothing when no human remains; otherwise
promote the first remaining human, load and apply their ban list
(disconnecting present banned humans and denying them connect), and — when
control panels are enabled — delete the old control channel and create a
new one scoped to the new owner. -/
def transfer_ownership_on_leave (db_bans : Nat → List Nat) (guildMembers : List Nat)
    (members : List Member) (d : VCData) (ow : OwMap) (newControlId : Nat) :
    TransferResult :=
  if VCOption.NO_OWNERSHIP_TRANSFER ∈ d.options then
    ⟨d, [], ow, none, none, none⟩
  else
    match members.filter (fun m => !m.isBot) with
    | [] => ⟨d, [], ow, none, none, none⟩
    | new_owner :: _ =>
      let new_owner_banned_users := db_bans new_owner.id
      let d1 := { d with owner_id := new_owner.id,
                         banned_users := new_owner_banned_users }
      let disconnected :=
        (members.filter (fun m => !m.isBot && decide (m.id ∈ new_owner_banned_users))).map
          Member.id
      let ow1 := new_owner_banned_users.foldl (ban_overwrite_step guildMembers) ow
      if VCOption.NO_CONTROL ∉ d.options then
        ⟨{ d1 with control_channel_id := some newControlId }, disconnected, ow1,
          d.control_channel_id, some newControlId, some new_owner.id⟩
      else ⟨d1, disconnected, ow1, none, none, none⟩

/-- Claim C7: when the owner leaves with at least one human remaining and
the no-ownership-transfer option unset, the new owner is deterministically
the first remaining human member, their persisted ban list replaces the
channel's ban set, every currently-present human on that list is
disconnected and denied connect, and with control panels enabled the old
control channel is deleted and a new one scoped to the new owner is
created. -/
theorem C7_ownership_transfer (db_bans : Nat → List Nat) (guildMembers : List Nat)
    (members : List Member) (d : VCData) (ow : OwMap) (newControlId : Nat)
    (new_owner : Member) (rest : List Member)
    (hopt : VCOption.NO_OWNERSHIP_TRANSFER ∉ d.options)
    (hmem : members.filter (fun m => !m.isBot) = new_owner :: rest) :
    (transfer_ownership_on_leave db_bans guildMembers members d ow
        newControlId).data.owner_id = new_owner.id ∧
    (transfer_ownership_on_leave db_bans guildMembers members d ow
        newControlId).data.banned_users = db_bans new_owner.id ∧
    (transfer_ownership_on_leave db_bans guildMembers members d ow
        newControlId).disconnected =
      (members.filter (fun m => !m.isBot && decide (m.id ∈ db_bans new_owner.id))).map
        Member.id ∧
    (∀ u ∈ db_bans new_owner.id, u ∈ guildMembers →
      (transfer_ownership_on_leave db_bans guildMembers members d ow
          newControlId).overwrites (OverwriteTarget.member u) =
        some { connect := some false }) ∧
    (VCOption.NO_CONTROL ∉ d.options →
      (transfer_ownership_on_leave db_bans guildMembers members d ow
          newControlId).control_delete_attempt = d.control_channel_id ∧
      (transfer_ownership_on_leave db_bans guildMembers members d ow
          newControlId).new_control_channel = some newControlId ∧
      (transfer_ownership_on_leave db_bans guildMembers members d ow
          newControlId).new_control_owner = some new_owner.id ∧
      (transfer_ownership_on_leave db_bans guildMembers members d ow
          newControlId).data.control_channel_id = some newControlId) := by
  unfold transfer_ownership_on_leave
  rw [if_neg hopt]
  simp only [hmem]
  by_cases hc : VCOption.NO_CONTROL ∈ d.options
  · rw [if_neg (not_not_intro hc)]
    exact ⟨rfl, rfl, rfl,
      fun u hu hg => ban_foldl_result guildMembers _ ow u hu hg,
      fun hcc => absurd hc hcc⟩
  · rw [if_pos hc]
    exact ⟨rfl, rfl, rfl,
      fun u hu hg => ban_foldl_result guildMembers _ ow u hu hg,
      fun _ => ⟨rfl, rfl, rfl, rfl⟩⟩

/-- Witness for C7: owner left a channel where humans 20 and 30 remain
(enumeration order `20, 30`); user 30 is on 20's persisted ban list. -/
theorem C7_ownership_transfer_witness :
    (transfer_ownership_on_leave
        (fun o => if o = 20 then [30] else []) [20, 30]
        [⟨20, false⟩, ⟨30, false⟩] { owner_id := 10 } initial_overwrites
        777).data.owner_id = 20 ∧
    (transfer_ownership_on_leave
        (fun o => if o = 20 then [30] else []) [20, 30]
        [⟨20, false⟩, ⟨30, false⟩] { owner_id := 10 } initial_overwrites
        777).disconnected =
      ([⟨20, false⟩, ⟨30, false⟩].filter
        (fun m => !m.isBot &&
          decide (m.id ∈ (fun o => if o = 20 then [30] else []) (20 : Nat)))).map
        Member.id :=
  ⟨(C7_ownership_transfer (fun o => if o = 20 then [30] else []) [20, 30]
      [⟨20, false⟩, ⟨30, false⟩] { owner_id := 10 } initial_overwrites 777
      ⟨20, false⟩ [⟨30, false⟩] (by decide) (by decide)).1,
   (C7_ownership_transfer (fun o => if o = 20 then [30] else []) [20, 30]
      [⟨20, false⟩, ⟨30, false⟩] { owner_id := 10 } initial_overwrites 777
      ⟨20, false⟩ [⟨30, false⟩] (by decide) (by decide)).2.2.1⟩

/-! ### C8 — startup reconciliation of `ActiveVoiceChannel` records

Embedding of the active-VC half of `VCManager.restore_from_database`
(vcmanager.py 152-170) together with `_restore_delayed_delete_task`
(330-336).  `persisted` is what `Database.get_active_vcs` returns (its keys
are unique — `vc_id` is the table's primary key); `existingChannels` are
the channel ids that resolve in some connected guild.  A resolvable record
is put into the in-memory index and, when its `delete_ready_at` is set, its
deferred-deletion timer is re-armed; an unresolvable record is deleted from
the store. -/

/-- The state the reconciliation pass builds: the in-memory index, the
surviving store rows, and the channel ids whose timers were re-armed. -/
structure RestoreResult where
  memory : List (Nat × VCData)
  store : List (Nat × VCData)
  armed : List Nat

/-- Processing one persisted record. -/
def restore_active_step (existingChannels : List Nat) (acc : RestoreResult)
    (p : Nat × VCData) : RestoreResult :=
  if p.1 ∈ existingChannels then
    { acc with
      memory := acc.memory ++ [p],
      armed := if p.2.delete_ready_at.isSome then acc.armed ++ [p.1] else acc.armed }
  else
    { acc with store := acc.store.filter (fun q => q.1 ≠ p.1) }

/-- The reconciliation pass over all persisted records. -/
def restore_from_database (persisted : List (Nat × VCData))
    (existingChannels : List Nat) : RestoreResult :=
  persisted.foldl (restore_active_step existingChannels) ⟨[], persisted, []⟩

theorem restore_memory_eq (existingChannels : List Nat) (l : List (Nat × VCData))
    (acc : RestoreResult) :
    (l.foldl (restore_active_step existingChannels) acc).memory =
      acc.memory ++ l.filter (fun p => decide (p.1 ∈ existingChannels)) := by
  induction l generalizing acc with
  | nil => simp
  | cons p ps ih =>
    rw [List.foldl_cons, ih]
    by_cases hp : p.1 ∈ existingChannels
    · simp [restore_active_step, hp, List.filter_cons]
    · simp [restore_active_step, hp, List.filter_cons]

theorem restore_armed_eq (existingChannels : List Nat) (l : List (Nat × VCData))
    (acc : RestoreResult) :
    (l.foldl (restore_active_step existingChannels) acc).armed =
      acc.armed ++
        (l.filter (fun p =>
          decide (p.1 ∈ existingChannels) && p.2.delete_ready_at.isSome)).map Prod.fst := by
  induction l generalizing acc with
  | nil => simp
  | cons p ps ih =>
    rw [List.foldl_cons, ih]
    by_cases hp : p.1 ∈ existingChannels
    · by_cases hs : p.2.delete_ready_at.isSome
      · simp [restore_active_step, hp, hs, List.filter_cons]
      · simp [restore_active_step, hp, hs, List.filter_cons]
    · simp [restore_active_step, hp, List.filter_cons]

theorem vcLookup_eq_none_iff (l : List (Nat × VCData)) (k : Nat) :
    vcLookup l k = none ↔ ∀ q ∈ l, q.1 ≠ k := by
  simp [vcLookup, Option.map_eq_none, List.find?_eq_none]

theorem vcLookup_filter_of_none (l : List (Nat × VCData)) (f : Nat × VCData → Bool)
    (k : Nat) (h : vcLookup l k = none) : vcLookup (l.filter f) k = none := by
  rw [vcLookup_eq_none_iff] at h ⊢
  intro q hq
  exact h q (List.mem_filter.mp hq).1

theorem restore_store_none_mono (existingChannels : List Nat) (l : List (Nat × VCData))
    (acc : RestoreResult) (k : Nat) (h : vcLookup acc.store k = none) :
    vcLookup (l.foldl (restore_active_step existingChannels) acc).store k = none := by
  induction l generalizing acc with
  | nil => exact h
  | cons p ps ih =>
    rw [List.foldl_cons]
    apply ih
    unfold restore_active_step
    split
    · exact h
    · exact vcLookup_filter_of_none _ _ _ h

theorem restore_store_unresolved (existingChannels : List Nat) (k : Nat) (d : VCData)
    (hk : k ∉ existingChannels) :
    ∀ (l : List (Nat × VCData)) (acc : RestoreResult), (k, d) ∈ l →
      vcLookup (l.foldl (restore_active_step existingChannels) acc).store k = none := by
  intro l
  induction l with
  | nil => intro acc h; cases h
  | cons p ps ih =>
    intro acc hmem
    rw [List.foldl_cons]
    rcases List.mem_cons.mp hmem with hp | hp
    · apply restore_store_none_mono
      rw [← hp]
      unfold restore_active_step
      rw [if_neg hk]
      exact vcLookup_filter_ne acc.store k
    · exact ih _ hp

theorem mem_keys_eq_of_nodup (k : Nat) (d : VCData) :
    ∀ l : List (Nat × VCData), (l.map Prod.fst).Nodup → (k, d) ∈ l →
      ∀ q ∈ l, q.1 = k → q = (k, d) := by
  intro l
  induction l with
  | nil => intro _ hm; cases hm
  | cons x xs ih =>
    intro hnd hm q hq hqk
    rw [List.map_cons, List.nodup_cons] at hnd
    rcases List.mem_cons.mp hm with hm1 | hm2
    · rcases List.mem_cons.mp hq with hq1 | hq2
      · rw [hq1, ← hm1]
      · exfalso
        apply hnd.1
        have hxk : x.1 = k := by rw [← hm1]
        rw [hxk]
        exact List.mem_map.mpr ⟨q, hq2, hqk⟩
    · rcases List.mem_cons.mp hq with hq1 | hq2
      · exfalso
        apply hnd.1
        have hxk : x.1 = k := by rw [← hq1]; exact hqk
        rw [hxk]
        exact List.mem_map.mpr ⟨(k, d), hm2, rfl⟩
      · exact ih hnd.2 hm2 q hq2 hqk

theorem vcLookup_of_mem_nodup (k : Nat) (d : VCData) :
    ∀ l : List (Nat × VCData), (l.map Prod.fst).Nodup → (k, d) ∈ l →
      vcLookup l k = some d := by
  intro l
  induction l with
  | nil => intro _ hm; cases hm
  | cons x xs ih =>
    intro hnd hm
    rw [List.map_cons, List.nodup_cons] at hnd
    rcases List.mem_cons.mp hm with hm1 | hm2
    · simp [vcLookup, List.find?_cons, ← hm1]
    · have hk : k ∈ xs.map Prod.fst := List.mem_map.mpr ⟨(k, d), hm2, rfl⟩
      have hne : ¬ (x.1 = k) := fun he => hnd.1 (by rw [he]; exact hk)
      have hrec := ih hnd.2 hm2
      simpa [vcLookup, List.find?_cons, hne] using hrec

/-- Claim C8: after reconciliation, a persisted record whose channel id does
not resolve in any connected guild is absent from both the store and the
in-memory index; a record that does resolve is re-indexed in memory, and
its deferred-deletion timer is re-armed exactly when `delete_not_before`
(`delete_ready_at`) is set — the re-armed timer fires at
`max(now, delete_ready_at)`, i.e. immediately when the instant has already
elapsed, deleting the channel exactly when no human member remains. -/
theorem C8_reconciliation (persisted : List (Nat × VCData)) (existingChannels : List Nat)
    (chId : Nat) (d : VCData)
    (hnd : (persisted.map Prod.fst).Nodup) (hp : (chId, d) ∈ persisted) :
    (chId ∉ existingChannels →
      vcLookup (restore_from_database persisted existingChannels).memory chId = none ∧
      vcLookup (restore_from_database persisted existingChannels).store chId = none) ∧
    (chId ∈ existingChannels →
      vcLookup (restore_from_database persisted existingChannels).memory chId = some d ∧
      (chId ∈ (restore_from_database persisted existingChannels).armed ↔
        d.delete_ready_at.isSome)) ∧
    (∀ T now : Nat, d.delete_ready_at = some T →
      (T ≤ now → delayed_delete_worker_fire_time now T = now) ∧
      (delayed_delete_worker_fire ⟨some d, false⟩ 0).deleted = true ∧
      (∀ h : Nat, 0 < h →
        delayed_delete_worker_fire ⟨some d, false⟩ h = ⟨some d, false⟩)) := by
  refine ⟨fun hk => ⟨?_, ?_⟩, fun hk => ⟨?_, ?_⟩, fun T now hT => ⟨?_, ?_, ?_⟩⟩
  · rw [restore_from_database, restore_memory_eq, vcLookup_eq_none_iff]
    intro q hq hqk
    have hq2 : q ∈ persisted ∧ q.1 ∈ existingChannels := by simpa using hq
    rw [hqk] at hq2
    exact hk hq2.2
  · exact restore_store_unresolved existingChannels chId d hk persisted _ hp
  · rw [restore_from_database, restore_memory_eq]
    have hsub : ((persisted.filter
        (fun p => decide (p.1 ∈ existingChannels))).map Prod.fst).Nodup :=
      List.Nodup.sublist ((List.filter_sublist _).map Prod.fst) hnd
    have hmem : (chId, d) ∈ persisted.filter (fun p => decide (p.1 ∈ existingChannels)) :=
      List.mem_filter.mpr ⟨hp, by simpa using hk⟩
    simpa using vcLookup_of_mem_nodup chId d _ hsub hmem
  · rw [restore_from_database, restore_armed_eq]
    constructor
    · intro ha
      have ha2 : ∃ x, (chId, x) ∈ persisted ∧ chId ∈ existingChannels ∧
          x.delete_ready_at.isSome = true := by simpa using ha
      obtain ⟨x, hxmem, -, hxs⟩ := ha2
      have hxe := mem_keys_eq_of_nodup chId d persisted hnd hp (chId, x) hxmem rfl
      have hxd : x = d := congrArg Prod.snd hxe
      rw [← hxd]
      exact hxs
    · intro hs
      refine List.mem_append.mpr (Or.inr ?_)
      exact List.mem_map.mpr
        ⟨(chId, d), List.mem_filter.mpr ⟨hp, by simp [hk, hs]⟩, rfl⟩
  · intro hTle
    exact Nat.max_eq_left hTle
  · simp [delayed_delete_worker_fire, parse_delete_ready_at, hT]
  · intro h hh
    simp [delayed_delete_worker_fire, parse_delete_ready_at, hT,
      Nat.pos_iff_ne_zero.mp hh, hh.ne.symm]

/-- Witness for C8: two persisted records, channel 100 resolvable with a
pending deletion instant, channel 300 not resolvable. -/
theorem C8_reconciliation_witness :
    ((100 : Nat) ∈ ([100, 200] : List Nat) →
      vcLookup (restore_from_database
          [(100, { delete_ready_at := some 50 }), (300, { owner_id := 9 })]
          [100, 200]).memory 100 = some { delete_ready_at := some 50 } ∧
      (100 ∈ (restore_from_database
          [(100, { delete_ready_at := some 50 }), (300, { owner_id := 9 })]
          [100, 200]).armed ↔
        (Option.some (50 : Nat)).isSome)) ∧
    ((300 : Nat) ∉ ([100, 200] : List Nat) →
      vcLookup (restore_from_database
          [(100, { delete_ready_at := some 50 }), (300, { owner_id := 9 })]
          [100, 200]).memory 300 = none ∧
      vcLookup (restore_from_database
          [(100, { delete_ready_at := some 50 }), (300, { owner_id := 9 })]
          [100, 200]).store 300 = none) :=
  ⟨(C8_reconciliation [(100, { delete_ready_at := some 50 }), (300, { owner_id := 9 })]
      [100, 200] 100 { delete_ready_at := some 50 } (by decide) (by decide)).2.1,
   (C8_reconciliation [(100, { delete_ready_at := some 50 }), (300, { owner_id := 9 })]
      [100, 200] 300 { owner_id := 9 } (by decide) (by decide)).1⟩

/-! ### C9 — creator ban list at provisioning

Embedding of the ban-application block of `_create_and_move_user_impl`
(vcmanager.py 534-554) together with the `banned_users` field stored in the
new record (567).  The code computes `has_control = NO_CONTROL not in
options` and loads/applies the creator's ban list **only** in the
`has_control` branch; otherwise `banned_users` stays `[]` and no overwrite
is touched. -/

/-- What the ban block contributes to the new channel. -/
structure BanApplyResult where
  banned_users : List Nat
  overwrites : OwMap
  edit_called : Bool

/-- The ban block: `db_bans` is `Database.get_banned_users`, `guildMembers`
the ids `guild.get_member` resolves, `ow` the overwrites computed so far. -/
def apply_creator_bans (db_bans : Nat → List Nat) (options : List String)
    (creator_id : Nat) (guildMembers : List Nat) (ow : OwMap) : BanApplyResult :=
  if VCOption.NO_CONTROL ∉ options then
    let banned_users := db_bans creator_id
    if banned_users ≠ [] then
      ⟨banned_users, banned_users.foldl (ban_overwrite_step guildMembers) ow, true⟩
    else ⟨banned_users, ow, false⟩
  else ⟨[], ow, false⟩

/-- Counterexample to claim C9: creator 1 has user 42 on their persisted
ban list, user 42 is present in the guild, and the config carries the
no-control-panel option.  The ban list is neither copied into the record
nor applied to the overwrites — so the copy does depend on the option
flags. -/
theorem C9_bans_skipped_counterexample :
    (apply_creator_bans (fun o => if o = 1 then [42] else []) [VCOption.NO_CONTROL]
        1 [42] initial_overwrites).banned_users = [] ∧
    (apply_creator_bans (fun o => if o = 1 then [42] else []) [VCOption.NO_CONTROL]
        1 [42] initial_overwrites).overwrites (OverwriteTarget.member 42) = none := by
  constructor
  · rfl
  · rfl

/-- Claim C9 as amended: the creator's persisted ban list is copied into
the new channel's record and overwrite set (each banned member who
resolves in the guild denied connect) exactly when the control-panel
feature is enabled, i.e. when the no-control-panel option is absent; with
that option set the list is neither loaded nor applied. -/
theorem C9_bans_copied_iff_control (db_bans : Nat → List Nat) (options : List String)
    (creator_id : Nat) (guildMembers : List Nat) (ow : OwMap) :
    (VCOption.NO_CONTROL ∉ options →
      (apply_creator_bans db_bans options creator_id guildMembers ow).banned_users =
        db_bans creator_id ∧
      (∀ u ∈ db_bans creator_id, u ∈ guildMembers →
        (apply_creator_bans db_bans options creator_id guildMembers ow).overwrites
          (OverwriteTarget.member u) = some { connect := some false })) ∧
    (VCOption.NO_CONTROL ∈ options →
      (apply_creator_bans db_bans options creator_id guildMembers ow).banned_users = [] ∧
      (apply_creator_bans db_bans options creator_id guildMembers ow).overwrites = ow) := by
  constructor
  · intro hnc
    unfold apply_creator_bans
    rw [if_pos hnc]
    by_cases hb : db_bans creator_id = []
    · rw [if_neg (not_not_intro hb)]
      refine ⟨rfl, fun u hu _ => ?_⟩
      rw [hb] at hu
      cases hu
    · rw [if_pos hb]
      exact ⟨rfl, fun u hu hg => ban_foldl_result guildMembers _ ow u hu hg⟩
  · intro hc
    unfold apply_creator_bans
    rw [if_neg (not_not_intro hc)]
    exact ⟨rfl, rfl⟩

/-- Witness for C9 (amended): with an empty option set the ban list is
copied and applied. -/
theorem C9_bans_copied_iff_control_witness :
    (apply_creator_bans (fun o => if o = 1 then [42] else []) []
        1 [42] initial_overwrites).banned_users =
      (fun o : Nat => if o = 1 then [42] else []) 1 ∧
    (∀ u ∈ (fun o : Nat => if o = 1 then [42] else []) 1, u ∈ ([42] : List Nat) →
      (apply_creator_bans (fun o => if o = 1 then [42] else []) []
          1 [42] initial_overwrites).overwrites (OverwriteTarget.member u) =
        some { connect := some false }) :=
  (C9_bans_copied_iff_control (fun o => if o = 1 then [42] else []) [] 1 [42]
    initial_overwrites).1 (by decide)

/-! ### C10 — per-owner ban list add/remove

Embedding of `Database.add_banned_user` (database.py 278-304) and
`Database.remove_banned_user` (306-330).  The store keeps one
comma-separated list per owner; serialization of an integer list to the
CSV column and back is faithful, so the store is modelled as the mapping
from owner id to the parsed list (`[]` for a missing row).  `add` appends
the id only when absent; `remove` is Python `list.remove`, which deletes
the first occurrence — `List.erase`. -/

/-- The `user_vc_settings` table: owner id to parsed `banned_users`. -/
def BanStore : Type := Nat → List Nat

/-- `Database.get_banned_users`. -/
def get_banned_users (s : BanStore) (user_id : Nat) : List Nat := s user_id

/-- `Database.add_banned_user`. -/
def add_banned_user (s : BanStore) (owner_id banned_user_id : Nat) : BanStore :=
  fun u =>
    if u = owner_id then
      if banned_user_id ∈ s owner_id then s owner_id
      else s owner_id ++ [banned_user_id]
    else s u

/-- `Database.remove_banned_user`. -/
def remove_banned_user (s : BanStore) (owner_id banned_user_id : Nat) : BanStore :=
  fun u => if u = owner_id then (s owner_id).erase banned_user_id else s u

/-- Stores reachable from the initial empty table through the two
operations. -/
inductive BanStoreReachable : BanStore → Prop where
  | start : BanStoreReachable (fun _ => [])
  | add (s : BanStore) (owner_id banned_user_id : Nat) :
      BanStoreReachable s →
      BanStoreReachable (add_banned_user s owner_id banned_user_id)
  | remove (s : BanStore) (owner_id banned_user_id : Nat) :
      BanStoreReachable s →
      BanStoreReachable (remove_banned_user s owner_id banned_user_id)

/-- Every reachable stored ban list is duplicate-free. -/
theorem banstore_nodup (s : BanStore) (h : BanStoreReachable s) :
    ∀ u, (s u).Nodup := by
  induction h with
  | start => intro u; simp
  | add s o b _ ih =>
    intro u
    simp only [add_banned_user]
    by_cases hu : u = o
    · rw [if_pos hu]
      by_cases hb : b ∈ s o
      · rw [if_pos hb]
        exact ih o
      · rw [if_neg hb]
        refine List.Nodup.append (ih o) (List.nodup_singleton b) ?_
        intro a ha hb2
        rw [List.mem_singleton.mp hb2] at ha
        exact hb ha
    · rw [if_neg hu]
      exact ih u
  | remove s o b _ ih =>
    intro u
    simp only [remove_banned_user]
    by_cases hu : u = o
    · rw [if_pos hu]
      exact (ih o).erase b
    · rw [if_neg hu]
      exact ih u

/-- Claim C10: adding an id already on the owner's stored ban list leaves
the store unchanged, reachable stored ban lists never contain duplicates,
and a subsequent remove for the same pair leaves the list without that
id. -/
theorem C10_ban_add_remove (s : BanStore) (owner_id banned_user_id : Nat)
    (hreach : BanStoreReachable s)
    (hmem : banned_user_id ∈ get_banned_users s owner_id) :
    add_banned_user s owner_id banned_user_id = s ∧
    (∀ u, (get_banned_users s u).Nodup) ∧
    banned_user_id ∉
      get_banned_users
        (remove_banned_user (add_banned_user s owner_id banned_user_id)
          owner_id banned_user_id) owner_id := by
  have hnd := banstore_nodup s hreach
  have hmem2 : banned_user_id ∈ s owner_id := hmem
  have hadd : add_banned_user s owner_id banned_user_id = s := by
    funext u
    simp only [add_banned_user]
    by_cases hu : u = owner_id
    · rw [if_pos hu, if_pos hmem2, hu]
    · rw [if_neg hu]
  refine ⟨hadd, hnd, ?_⟩
  rw [hadd]
  simp only [remove_banned_user, get_banned_users, if_true]
  intro hcon
  exact (((hnd owner_id).mem_erase_iff).mp hcon).1 rfl

/-- Witness for C10: the store obtained by banning 42 for owner 7 starting
from the empty table. -/
theorem C10_ban_add_remove_witness :
    (42 : Nat) ∉
      get_banned_users
        (remove_banned_user
          (add_banned_user (add_banned_user (fun _ => []) 7 42) 7 42) 7 42) 7 :=
  (C10_ban_add_remove (add_banned_user (fun _ => []) 7 42) 7 42
    (BanStoreReachable.add _ 7 42 BanStoreReachable.start) (by decide)).2.2
